import Mathlib

/-!
Shallow embedding of the transfer engine of `webdrive/client.py` (a command-line
client for a file-sharing service).  Python strings are modelled as `List Char`,
the local filesystem and the remote server as oracle structures, and every
network round-trip is recorded in an explicit event trace.  Python exceptions
(`AssertionError`, `UnboundLocalError`, `OSError` from a negative seek,
`IndexError`) are modelled with `Except`.
-/

namespace Webdrive

/-- Python strings, modelled as lists of characters. -/
abbrev PyStr := List Char

/-- Convert a Lean string literal to the `PyStr` model. -/
def pys (s : String) : PyStr := s.toList

/-- `s.startswith(':')` — the remote-path marker test used throughout
`process_names`. -/
def startswithColon : PyStr → Bool
  | c :: _ => decide (c = ':')
  | [] => false

/-- `s.startswith('/')`, used by `os.path.join` to detect an absolute second
component. -/
def startswithSlash : PyStr → Bool
  | c :: _ => decide (c = '/')
  | [] => false

/-- `os.path.join(a, b)` for POSIX paths as the client uses it: an absolute `b`
replaces `a`; otherwise the parts are glued with a single separator. -/
def osJoin (a b : PyStr) : PyStr :=
  if startswithSlash b then b
  else if a = [] then b
  else if a.getLast? = some '/' then a ++ b
  else a ++ '/' :: b

/-- `os.path.dirname(p)` for POSIX paths: everything before the last slash,
with trailing slashes stripped unless the head is all slashes. -/
def pyDirname (p : PyStr) : PyStr :=
  let i := p.length - (p.reverse.takeWhile (· ≠ '/')).length
  let head := p.take i
  if head ≠ [] ∧ head.any (· ≠ '/') then (head.reverse.dropWhile (· = '/')).reverse
  else head

/-- Python runtime errors raised by the client code paths we model. -/
inductive PyErr where
  /-- a failed `assert`, with its message -/
  | assertionError (msg : String)
  /-- `UnboundLocalError`: a local variable read before any assignment -/
  | unboundLocal
  /-- `OSError` raised by `file.seek` on a negative offset -/
  | osError
  /-- the `OSError` subclasses raised by `open(src, 'rb')` when the source is
  not an openable regular file (`FileNotFoundError`, `IsADirectoryError`) -/
  | fileNotFound
  /-- `IndexError` from `x[0]` on an empty string -/
  | indexError
  /-- model-only: the fuel of the walk loop ran out (the Python loop would
  still be running) -/
  | outOfFuel
  deriving DecidableEq

/-- The dynamically-typed second component of the client's
`(status, errmsg)` return values: `None`, a bare string, or the server's
error list. -/
inductive ErrVal where
  | none
  | str (s : String)
  | list (es : List PyStr)
  deriving DecidableEq

/-- A `(status, errmsg)` pair as returned by `upload` / `upload_one_file`. -/
abbrev Outcome := Bool × ErrVal

/-- Observable network calls issued by the client, in order. -/
inductive Event where
  /-- a call to the `exists` endpoint (`rexists`) -/
  | existsProbe (path : PyStr)
  /-- a call to the `mkdir` endpoint (always with `-p`) -/
  | mkdirReq (path : PyStr)
  /-- a rapid-upload claim of a digest for a destination (dedup mode) -/
  | dedupClaim (src dst digest : PyStr)
  /-- a call to the `offset` endpoint (`remote_file_offset`) -/
  | offsetQuery (src dst : PyStr)
  /-- a call to the `upload` endpoint carrying file bytes from `off` onward -/
  | uploadBytes (src dst : PyStr) (off : Int)
  deriving DecidableEq

/-- True exactly on `exists`-endpoint probe events. -/
def Event.isProbe : Event → Bool
  | .existsProbe _ => true
  | _ => false

/-- True exactly on `upload`-endpoint calls carrying file bytes. -/
def Event.isUploadBytes : Event → Bool
  | .uploadBytes _ _ _ => true
  | _ => false

/-- The local filesystem as a read-only oracle: `os.path.exists`,
`os.path.isdir`, `os.path.isfile` and `os.listdir` are the only primitives
the client consults. -/
structure LocalFS where
  pexists : PyStr → Bool
  isdir : PyStr → Bool
  isfile : PyStr → Bool
  listdir : PyStr → List PyStr

/-- The remote server as an oracle.  `rexists`, `offset`, `uploadStatus` /
`uploadErrors` and `mkdirOk` model the JSON replies of the `exists`, `offset`,
`upload` and `mkdir` endpoints (the server is assumed reachable, so the
`assert res` guards after `send_request` never fire).

`digestOf` and `oneModeOk` are Modelled from the spec: the functions
`digest_of_path` (Digest Cache, spec §4.3) and `one_mode_upload` (rapid-upload
claim, spec §4.4 step 1) are referenced by `upload_one_file` but their
definitions are not part of `client.py`; they are modelled as the digest of a
local path and the server's confirmation that content matching that digest is
already stored and linked for the destination. -/
structure Oracle where
  rexists : PyStr → Bool
  mkdirOk : PyStr → Bool
  offset : PyStr → PyStr → Int
  uploadStatus : PyStr → PyStr → Int → Bool
  uploadErrors : PyStr → PyStr → Int → List PyStr
  digestOf : PyStr → PyStr
  oneModeOk : PyStr → PyStr → PyStr → Bool

/-- `upload_one_file(src, dst, one, verbose)` of `client.py` (`verbose` only
controls printing and is not modelled).  In dedup mode (`one`) the digest is
claimed first and a confirmed claim returns `(True, None)` with no further
calls.  Otherwise the offset endpoint is queried; the source's
`if offset == -1: True, None` line discards the tuple instead of returning it,
so execution always continues to `sfile = open(src, 'rb')` — which raises if
`src` is not an openable regular file (modelled by `fs.isfile`) — and then to
`sfile.seek(offset)`, which raises `OSError` on a negative offset.  Only then
is one upload-endpoint call made, whose `status`/`errors` fields are returned
verbatim. -/
def upload_one_file (fs : LocalFS) (O : Oracle) (src dst : PyStr) (one : Bool) :
    List Event × Except PyErr Outcome :=
  let devents : List Event :=
    if one then [Event.dedupClaim src dst (O.digestOf src)] else []
  if one && O.oneModeOk src dst (O.digestOf src) then
    (devents, .ok (true, ErrVal.none))
  else
    let off := O.offset src dst
    let evs := devents ++ [Event.offsetQuery src dst]
    if !(fs.isfile src) then
      (evs, .error .fileNotFound)
    else if off < 0 then
      (evs, .error .osError)
    else
      (evs ++ [Event.uploadBytes src dst off],
        .ok (O.uploadStatus src dst off, ErrVal.list (O.uploadErrors src dst off)))

/-- The inner `for sub in os.listdir(dir)` body of `upload`'s directory walk.
Subdirectories are appended to the queue as `(path, os.path.join(dst_dir, sub))`
(note: relative to `dst_dir`, not to the directory created for this task);
regular files are sent through `upload_one_file` at once, rebinding the
`status, errmsg` locals (modelled by the `Option Outcome` state); entries that
are neither are skipped.  An exception from `upload_one_file` propagates. -/
def processEntries (fs : LocalFS) (O : Oracle) (one : Bool) (dir dst_dir : PyStr) :
    List PyStr → List (PyStr × PyStr) → Option Outcome →
    List Event × Except PyErr (List (PyStr × PyStr) × Option Outcome)
  | [], q, st => ([], .ok (q, st))
  | sub :: rest, q, st =>
    let path := osJoin dir sub
    if fs.isdir path then
      processEntries fs O one dir dst_dir rest (q ++ [(path, osJoin dst_dir sub)]) st
    else if fs.isfile path then
      match upload_one_file fs O path (osJoin dst_dir sub) one with
      | (evs, .error e) => (evs, .error e)
      | (evs, .ok out) =>
        match processEntries fs O one dir dst_dir rest q (some out) with
        | (evs2, r) => (evs ++ evs2, r)
    else
      processEntries fs O one dir dst_dir rest q st

/-- The `while dirs:` loop of `upload`.  State: the queue of
`(dir, dst_dir)` pairs (popped from the front, appended at the back), the
`assume_not_exists` flag, and the `status, errmsg` locals as an
`Option Outcome` (`none` = never assigned).  Each popped task probes the
remote target only when `assume_not_exists` is still false; a target found
missing (or assumed missing) is created as `dst_dir` itself and sets the flag,
while a target found present is created as `os.path.join(dst_dir, dir)` and
leaves the flag false.  `assert mkdir(...)` turns a failed creation into an
`AssertionError`.  `fuel` bounds the number of loop iterations (model only). -/
def walk (fs : LocalFS) (O : Oracle) (one : Bool) :
    Nat → List (PyStr × PyStr) → Bool → Option Outcome →
    List Event × Except PyErr (Option Outcome)
  | _, [], _, st => ([], .ok st)
  | 0, _ :: _, _, _ => ([], .error .outOfFuel)
  | fuel + 1, (dir, dst_dir) :: rest, anE, st =>
    let probeEvs : List Event := if anE then [] else [Event.existsProbe dst_dir]
    let step : PyStr × Bool :=
      if anE || !(O.rexists dst_dir) then (dst_dir, true)
      else (osJoin dst_dir dir, anE)
    let new_dir := step.1
    let evs1 := probeEvs ++ [Event.mkdirReq new_dir]
    if O.mkdirOk new_dir then
      match processEntries fs O one dir dst_dir (fs.listdir dir) rest st with
      | (evs2, .error e) => (evs1 ++ evs2, .error e)
      | (evs2, .ok (q2, st2)) =>
        match walk fs O one fuel q2 step.2 st2 with
        | (evs3, r) => (evs1 ++ evs2 ++ evs3, r)
    else
      (evs1, .error (.assertionError "mkdir failed"))

/-- `upload(src, dst, one, recursive, verbose)` of `client.py` (`verbose`
not modelled).  A directory source without `-r` returns
`(False, "omitting directory: ...")`; with `-r` it runs the walk seeded with
`[(src, dst)]`, and reaching `return status, errmsg` with the locals never
assigned raises `UnboundLocalError`.  A non-directory source first creates
`dirname(dst)` remotely (`assert mkdir`), then uploads the single file. -/
def upload (fs : LocalFS) (O : Oracle) (fuel : Nat) (src dst : PyStr)
    (one recursive : Bool) : List Event × Except PyErr Outcome :=
  if fs.isdir src then
    if !recursive then
      ([], .ok (false, ErrVal.str ("omitting directory: " ++ String.mk src)))
    else
      match walk fs O one fuel [(src, dst)] false Option.none with
      | (evs, .error e) => (evs, .error e)
      | (evs, .ok Option.none) => (evs, .error .unboundLocal)
      | (evs, .ok (some out)) => (evs, .ok out)
  else
    let pdir := pyDirname dst
    if O.mkdirOk pdir then
      match upload_one_file fs O src dst one with
      | (evs, r) => (Event.mkdirReq pdir :: evs, r)
    else
      ([Event.mkdirReq pdir], .error (.assertionError "mkdir failed"))

/-- `chars = [x[0] for x in src]`: the first characters of the source tokens;
an empty token raises `IndexError`. -/
def firstChars : List PyStr → Except PyErr (List Char)
  | [] => .ok []
  | [] :: _ => .error .indexError
  | (c :: _) :: rest =>
    match firstChars rest with
    | .error e => .error e
    | .ok cs => .ok (c :: cs)

/-- The tail of `process_names`: direction from the destination marker, local
filesystem preconditions (`assert`s), and the unconditional `dst = dst[1:]`
strip of the destination's first character. -/
def process_names_fscheck (fs : LocalFS) (src : List PyStr) (dst : PyStr) :
    Except PyErr (List PyStr × PyStr × Bool) :=
  if startswithColon dst then
    match src.find? (fun n => !fs.pexists n) with
    | some n => .error (.assertionError ("file not exists: " ++ String.mk n))
    | Option.none => .ok (src, dst.tail, true)
  else
    if fs.pexists dst then
      if fs.isdir dst then .ok (src, dst.tail, false)
      else .error (.assertionError "destination exists but is not a directory")
    else
      if fs.isdir (pyDirname dst) then .ok (src, dst.tail, false)
      else .error (.assertionError "not exists or not a directory")

/-- `process_names(names)` of `client.py`: split the tokens into sources and a
destination, reject mixed or absent remote markers, check the local
filesystem preconditions, and return `(src, dst[1:], is_upload)`. -/
def process_names (fs : LocalFS) (names : List PyStr) :
    Except PyErr (List PyStr × PyStr × Bool) :=
  match names with
  | [] => .error (.assertionError "expect at least two file names")
  | [_] => .error (.assertionError "expect at least two file names")
  | [s, d] =>
    if (startswithColon s && startswithColon d)
        || (!startswithColon s && !startswithColon d) then
      .error (.assertionError "wrong source or destination address")
    else
      process_names_fscheck fs [s] d
  | _ =>
    let src := names.dropLast
    let dst := names.getLastD []
    match firstChars src with
    | .error e => .error e
    | .ok chars =>
      if (startswithColon dst && chars.count ':' ≠ 0)
          || (!startswithColon dst && chars.count ':' ≠ chars.length) then
        .error (.assertionError "wrong source or destination address")
      else
        process_names_fscheck fs src dst

/-- The `for src_path in src:` loop of `cp`: each source goes through
`upload`; a `False` status flips the aggregate result, an exception
propagates. -/
def cpLoop (fs : LocalFS) (O : Oracle) (fuel : Nat) (one recursive : Bool)
    (dst : PyStr) : List PyStr → Bool → List Event × Except PyErr Bool
  | [], res => ([], .ok res)
  | s :: srest, res =>
    match upload fs O fuel s dst one recursive with
    | (evs, .error e) => (evs, .error e)
    | (evs, .ok (st, _)) =>
      match cpLoop fs O fuel one recursive dst srest (res && st) with
      | (evs2, r) => (evs ++ evs2, r)

/-- `cp(args, api)` of `client.py`, after flag parsing: classify the names
with `process_names`, then upload every source to the destination (the
returned `is_upload` direction is bound but never consulted). -/
def cp (fs : LocalFS) (O : Oracle) (fuel : Nat) (one recursive : Bool)
    (names : List PyStr) : List Event × Except PyErr Bool :=
  match process_names fs names with
  | .error e => ([], .error e)
  | .ok (src, dst, _is_upload) => cpLoop fs O fuel one recursive dst src true

/-- The `(status, errmsg)` outcome `upload_one_file` produces for a plain
(non-dedup) transfer whose offset query returned a non-negative value. -/
def fileOut (O : Oracle) (p d : PyStr) : Outcome :=
  (O.uploadStatus p d (O.offset p d), ErrVal.list (O.uploadErrors p d (O.offset p d)))

/-- The local-filesystem precondition `process_names` imposes on a download
destination: an existing destination must be a directory, a missing one must
have a directory as its `dirname`. -/
def downloadDstOk (fs : LocalFS) (dst : PyStr) : Bool :=
  if fs.pexists dst then fs.isdir dst else fs.isdir (pyDirname dst)

/-! Concrete fixtures used to evaluate the model at specific inputs. -/

/-- A benign server: nothing exists remotely yet, every mkdir succeeds, every
file starts from offset 0 and is accepted, dedup never confirms. -/
def O_base : Oracle where
  rexists := fun _ => false
  mkdirOk := fun _ => true
  offset := fun _ _ => 0
  uploadStatus := fun _ _ _ => true
  uploadErrors := fun _ _ _ => []
  digestOf := fun _ => pys "da39a3"
  oneModeOk := fun _ _ _ => false

/-- Like `O_base` but every remote path already exists. -/
def O_exists : Oracle := { O_base with rexists := fun _ => true }

/-- Like `O_base` but the offset endpoint reports the completion sentinel. -/
def O_minusOne : Oracle := { O_base with offset := fun _ _ => -1 }

/-- Like `O_base` but every remote directory creation fails. -/
def O_mkdirNo : Oracle := { O_base with mkdirOk := fun _ => false }

/-- Like `O_base` but the dedup claim always confirms. -/
def O_dedup : Oracle := { O_base with oneModeOk := fun _ _ _ => true }

/-- Like `O_base` but the upload of local `D/f` is rejected by the server
while every other upload is accepted. -/
def O_rejectF : Oracle :=
  { O_base with uploadStatus := fun p _ _ => if p = pys "D/f" then false else true }

/-- Local tree `photos/` containing `a.jpg` and `sub/b.jpg`. -/
def fsPhotos : LocalFS where
  pexists := fun p => decide (p = pys "photos" ∨ p = pys "photos/a.jpg"
    ∨ p = pys "photos/sub" ∨ p = pys "photos/sub/b.jpg")
  isdir := fun p => decide (p = pys "photos" ∨ p = pys "photos/sub")
  isfile := fun p => decide (p = pys "photos/a.jpg" ∨ p = pys "photos/sub/b.jpg")
  listdir := fun p =>
    if p = pys "photos" then [pys "a.jpg", pys "sub"]
    else if p = pys "photos/sub" then [pys "b.jpg"] else []

/-- Local tree `D/` containing exactly the regular files `f` and `g`. -/
def fsTwoFiles : LocalFS where
  pexists := fun p => decide (p = pys "D" ∨ p = pys "D/f" ∨ p = pys "D/g")
  isdir := fun p => decide (p = pys "D")
  isfile := fun p => decide (p = pys "D/f" ∨ p = pys "D/g")
  listdir := fun p => if p = pys "D" then [pys "f", pys "g"] else []

/-- Local tree `D/` containing exactly one (empty) subdirectory `S` and no
regular file anywhere. -/
def fsOnlyDirs : LocalFS where
  pexists := fun p => decide (p = pys "D" ∨ p = pys "D/S")
  isdir := fun p => decide (p = pys "D" ∨ p = pys "D/S")
  isfile := fun _ => false
  listdir := fun p => if p = pys "D" then [pys "S"] else []

/-- A local filesystem where only the current directory `.` exists (a
directory). -/
def fsDot : LocalFS where
  pexists := fun p => decide (p = pys ".")
  isdir := fun p => decide (p = pys ".")
  isfile := fun _ => false
  listdir := fun _ => []

/-- The empty local filesystem: nothing exists. -/
def fsNothing : LocalFS where
  pexists := fun _ => false
  isdir := fun _ => false
  isfile := fun _ => false
  listdir := fun _ => []

/-- A local filesystem for a download-direction run of `cp :a .`: the current
directory `.` exists, and a regular file literally named `:a` also exists
locally, so the bytes the upload path reads from it are really there. -/
def fsColonFile : LocalFS where
  pexists := fun p => decide (p = pys "." ∨ p = pys ":a")
  isdir := fun p => decide (p = pys ".")
  isfile := fun p => decide (p = pys ":a")
  listdir := fun _ => []

/-! Helper lemmas, shared between claims. -/

/-- A plain (non-dedup) `upload_one_file` on an existing regular file with a
non-negative reported offset performs exactly the offset query followed by
one upload-endpoint call and returns the server's verdict. -/
theorem upload_one_file_plain (fs : LocalFS) (O : Oracle) (p d : PyStr)
    (hf : fs.isfile p = true) (h : 0 ≤ O.offset p d) :
    upload_one_file fs O p d false
      = ([Event.offsetQuery p d, Event.uploadBytes p d (O.offset p d)],
         .ok (fileOut O p d)) := by
  unfold upload_one_file fileOut
  simp [hf, not_lt.mpr h]

/-- A single-file `upload` of an existing regular file with a succeeding
mkdir and a non-negative offset: remote-parent mkdir, offset query, one
upload call. -/
theorem upload_file_plain (fs : LocalFS) (O : Oracle) (fuel : Nat)
    (s dst : PyStr) (recursive : Bool)
    (hnd : fs.isdir s = false) (hf : fs.isfile s = true)
    (hmk : O.mkdirOk (pyDirname dst) = true)
    (hoff : 0 ≤ O.offset s dst) :
    upload fs O fuel s dst false recursive
      = ([Event.mkdirReq (pyDirname dst), Event.offsetQuery s dst,
          Event.uploadBytes s dst (O.offset s dst)],
         .ok (fileOut O s dst)) := by
  unfold upload
  rw [hnd]
  simp [hmk, upload_one_file_plain fs O s dst hf hoff]

/-! Claim C1. -/

/-- C1: the completion sentinel is NOT honoured.  When the offset endpoint
reports `-1`, `upload_one_file` does not return success with no transfer: the
source's `if offset == -1: True, None` discards the tuple instead of
returning it, execution falls through to `open(src, 'rb')` (which succeeds,
the source being an existing regular file) and then to `sfile.seek(-1)`, and
the file task dies with an `OSError`.  Evaluated at a concrete input: the
result is an error, not a success, after the single offset query. -/
theorem c1_offset_sentinel_falls_through :
    fsPhotos.isfile (pys "photos/a.jpg") = true ∧
    O_minusOne.offset (pys "photos/a.jpg") (pys "dst/a.jpg") = -1 ∧
    upload_one_file fsPhotos O_minusOne (pys "photos/a.jpg") (pys "dst/a.jpg") false
      = ([Event.offsetQuery (pys "photos/a.jpg") (pys "dst/a.jpg")],
         .error .osError) :=
  ⟨rfl, rfl, rfl⟩

/-! Claim C2. -/

/-- C2: dedup short-circuit.  In dedup mode (`-o`), when the server confirms
it already stores content matching the file's digest, `upload_one_file`
returns success immediately: the whole trace is the single digest claim, so
zero upload-endpoint calls carry a body. -/
theorem c2_dedup_short_circuit (fs : LocalFS) (O : Oracle) (src dst : PyStr)
    (h : O.oneModeOk src dst (O.digestOf src) = true) :
    upload_one_file fs O src dst true
      = ([Event.dedupClaim src dst (O.digestOf src)], .ok (true, ErrVal.none)) := by
  unfold upload_one_file
  simp [h]

/-- C2 witness: the dedup short-circuit evaluated on a concrete confirming
server, with an existing local source file. -/
theorem c2_dedup_short_circuit_witness :
    upload_one_file fsPhotos O_dedup (pys "photos/a.jpg") (pys "b/a.jpg") true
      = ([Event.dedupClaim (pys "photos/a.jpg") (pys "b/a.jpg") (pys "da39a3")],
         .ok (true, ErrVal.none)) :=
  c2_dedup_short_circuit fsPhotos O_dedup (pys "photos/a.jpg") (pys "b/a.jpg") rfl

/-! Claim C4. -/

/-- C4: the existence probe is NOT performed at most once per walk.  When the
first task's probe finds the target present, `assume_not_exists` is left
false and the next directory task probes again.  Concrete run: every remote
path reported present, local tree `photos/{a.jpg, sub/b.jpg}` — the walk
issues two exists-endpoint probes. -/
theorem c4_probe_not_at_most_once :
    ((upload fsPhotos O_exists 5 (pys "photos") (pys "X") false true).1.filter
        Event.isProbe)
      = [Event.existsProbe (pys "X"), Event.existsProbe (pys "X/sub")] :=
  rfl

/-! Claim C3. -/

/-- C3 counterexample: the spec's own scenario.  Uploading local `photos`
(containing `a.jpg` and `sub/b.jpg`) to the ABSENT remote target
`albums/2020` does not nest under the local name: the directory created is
`albums/2020` itself and the files land at `albums/2020/a.jpg` and
`albums/2020/sub/b.jpg`, where the claim requires `albums/2020/photos/...`. -/
theorem c3_absent_target_is_flat :
    O_base.rexists (pys "albums/2020") = false ∧
    (upload fsPhotos O_base 5 (pys "photos") (pys "albums/2020") false true).1
      = [Event.existsProbe (pys "albums/2020"),
         Event.mkdirReq (pys "albums/2020"),
         Event.offsetQuery (pys "photos/a.jpg") (pys "albums/2020/a.jpg"),
         Event.uploadBytes (pys "photos/a.jpg") (pys "albums/2020/a.jpg") 0,
         Event.mkdirReq (pys "albums/2020/sub"),
         Event.offsetQuery (pys "photos/sub/b.jpg") (pys "albums/2020/sub/b.jpg"),
         Event.uploadBytes (pys "photos/sub/b.jpg") (pys "albums/2020/sub/b.jpg") 0] :=
  ⟨rfl, rfl⟩

/-- C3 amended: the two branches are the reverse of the claim, and the nested
branch joins the FULL local path, not its base name.  For the first task of a
recursive directory upload: if the probe finds the target absent, the
directory created is the target itself (flat); if it finds the target
present, the directory created is `os.path.join(target, localDir)`.  (Child
entries are in both cases mapped relative to the popped task's target, see
`processEntries`.) -/
theorem c3_nest_merge_amended (fs : LocalFS) (O : Oracle) (fuel : Nat)
    (src dst : PyStr) (one : Bool) (hdir : fs.isdir src = true) :
    ∃ tail, (upload fs O (fuel + 1) src dst one true).1
      = Event.existsProbe dst
        :: Event.mkdirReq (if O.rexists dst then osJoin dst src else dst)
        :: tail := by
  unfold upload
  rw [hdir]
  show ∃ tail,
    (match walk fs O one (fuel + 1) [(src, dst)] false Option.none with
      | (evs, .error e) => (evs, Except.error e)
      | (evs, .ok Option.none) => (evs, Except.error PyErr.unboundLocal)
      | (evs, .ok (some out)) => (evs, Except.ok out)).1 = _
  unfold walk
  cases hre : O.rexists dst with
  | false =>
    simp only [hre, Bool.not_false, Bool.false_or, if_true, Bool.or_self]
    cases hmk : O.mkdirOk dst with
    | false => exact ⟨[], by simp [hmk]⟩
    | true =>
      rcases hpe : processEntries fs O one src dst (fs.listdir src) [] Option.none with
        ⟨evs2, r⟩
      cases r with
      | error e => exact ⟨evs2, by simp [hmk, hpe]⟩
      | ok pr =>
        rcases pr with ⟨q2, st2⟩
        rcases hw : walk fs O one fuel q2 true st2 with ⟨evs3, r3⟩
        refine ⟨evs2 ++ evs3, ?_⟩
        simp only [hmk, if_true, hpe, hw]
        cases r3 with
        | error e => simp
        | ok st =>
          cases st with
          | none => simp
          | some out => simp
  | true =>
    simp only [hre, Bool.not_true, Bool.false_or, if_false, Bool.or_false]
    cases hmk : O.mkdirOk (osJoin dst src) with
    | false => exact ⟨[], by simp [hmk]⟩
    | true =>
      rcases hpe : processEntries fs O one src dst (fs.listdir src) [] Option.none with
        ⟨evs2, r⟩
      cases r with
      | error e => exact ⟨evs2, by simp [hmk, hpe]⟩
      | ok pr =>
        rcases pr with ⟨q2, st2⟩
        rcases hw : walk fs O one fuel q2 false st2 with ⟨evs3, r3⟩
        refine ⟨evs2 ++ evs3, ?_⟩
        cases r3 with
        | error e => simp [hmk, hpe, hw]
        | ok st =>
          cases st with
          | none => simp [hmk, hpe, hw]
          | some out => simp [hmk, hpe, hw]

/-- C3 amended, witness: concrete run against a server where the target
already exists — the directory created is `X/photos` (target joined with the
full local path). -/
theorem c3_nest_merge_amended_witness :
    fsPhotos.isdir (pys "photos") = true ∧
    ∃ tail, (upload fsPhotos O_exists 5 (pys "photos") (pys "X") false true).1
      = Event.existsProbe (pys "X")
        :: Event.mkdirReq
            (if O_exists.rexists (pys "X") then osJoin (pys "X") (pys "photos")
             else pys "X")
        :: tail :=
  ⟨rfl, c3_nest_merge_amended fsPhotos O_exists 4 (pys "photos") (pys "X") false rfl⟩

/-! Claim C5. -/

/-- C5 counterexample: with the remote mkdir failing, the walk over `photos`
(whose `a.jpg` and subdirectory `sub` are still pending) stops at the very
first directory-creation failure with an `AssertionError`: the trace ends at
that mkdir request — no file is transferred, no sibling subtree is visited,
no error is merely recorded. -/
theorem c5_mkdir_failure_ends_walk :
    upload fsPhotos O_mkdirNo 5 (pys "photos") (pys "albums") false true
      = ([Event.existsProbe (pys "albums"), Event.mkdirReq (pys "albums")],
         .error (.assertionError "mkdir failed")) :=
  rfl

/-- C5 amended: a failed remote directory creation ABORTS the walk.
`assert mkdir(...)` raises `AssertionError` on the first failing creation;
for a first task whose probe finds the target absent, the whole recursive
upload stops right after that mkdir request, with nothing else attempted. -/
theorem c5_mkdir_failure_aborts (fs : LocalFS) (O : Oracle) (fuel : Nat)
    (src dst : PyStr) (one : Bool)
    (hdir : fs.isdir src = true) (hpr : O.rexists dst = false)
    (hmk : O.mkdirOk dst = false) :
    upload fs O (fuel + 1) src dst one true
      = ([Event.existsProbe dst, Event.mkdirReq dst],
         .error (.assertionError "mkdir failed")) := by
  unfold upload
  rw [hdir]
  unfold walk
  simp [hpr, hmk]

/-- C5 amended, witness: the abort evaluated on the concrete `photos` tree
with a failing mkdir. -/
theorem c5_mkdir_failure_aborts_witness :
    upload fsPhotos O_mkdirNo 5 (pys "photos") (pys "albums") true true
      = ([Event.existsProbe (pys "albums"), Event.mkdirReq (pys "albums")],
         .error (.assertionError "mkdir failed")) :=
  c5_mkdir_failure_aborts fsPhotos O_mkdirNo 4 (pys "photos") (pys "albums") true
    rfl rfl rfl

/-! Claim C6. -/

/-- C6 counterexample: local directory `D` holds `f`, whose upload the server
rejects, and then `g`, which it accepts.  The per-file failure is not
collected: `cp D :X` returns overall success — the exit status would be 0
although file `f`'s transfer failed. -/
theorem c6_failed_file_then_success :
    O_rejectF.uploadStatus (pys "D/f") (pys "X/f") 0 = false ∧
    (cp fsTwoFiles O_rejectF 5 false true [pys "D", pys ":X"]).2 = .ok true :=
  ⟨rfl, rfl⟩

/-- The default of `getLastD` is irrelevant on a non-empty list. -/
theorem getLastD_indep {α : Type} :
    ∀ (l : List α), l ≠ [] → ∀ a b : α, l.getLastD a = l.getLastD b
  | [], h, _, _ => absurd rfl h
  | [_], _, _, _ => rfl
  | _ :: _ :: _, _, _, _ => by
    simp only [List.getLastD_cons]

/-- Running `processEntries` over a non-empty all-files entry list (plain
mode, all offsets non-negative) leaves the queue unchanged and sets the
`status, errmsg` state to the LAST file's outcome, overwriting every earlier
one. -/
theorem processEntries_all_files (fs : LocalFS) (O : Oracle) (dir dst_dir : PyStr) :
    ∀ (entries : List PyStr), entries ≠ [] →
      (∀ e ∈ entries, fs.isdir (osJoin dir e) = false
        ∧ fs.isfile (osJoin dir e) = true
        ∧ 0 ≤ O.offset (osJoin dir e) (osJoin dst_dir e)) →
      ∀ (q : List (PyStr × PyStr)) (st : Option Outcome),
      (processEntries fs O false dir dst_dir entries q st).2
        = .ok (q, some (fileOut O (osJoin dir (entries.getLastD []))
                                  (osJoin dst_dir (entries.getLastD [])))) := by
  intro entries
  induction entries with
  | nil => intro hne; exact absurd rfl hne
  | cons e rest ih =>
    intro _ h q st
    obtain ⟨hd, hf, hoff⟩ := h e (List.mem_cons_self e rest)
    unfold processEntries
    simp only [hd, hf, Bool.false_eq_true, Bool.true_eq_false, if_false, if_true]
    rw [upload_one_file_plain fs O (osJoin dir e) (osJoin dst_dir e) hf hoff]
    cases hr : rest with
    | nil =>
      subst hr
      simp [processEntries, List.getLastD]
    | cons r rs =>
      rw [← hr]
      have hrne : rest ≠ [] := by rw [hr]; exact List.cons_ne_nil r rs
      have := ih hrne (fun x hx => h x (List.mem_cons_of_mem e hx)) q
        (some (fileOut O (osJoin dir e) (osJoin dst_dir e)))
      rcases hpe : processEntries fs O false dir dst_dir rest q
          (some (fileOut O (osJoin dir e) (osJoin dst_dir e))) with ⟨evs2, r2⟩
      rw [hpe] at this
      simp only [hpe]
      simp only [List.getLastD_cons]
      rw [getLastD_indep rest hrne e []]
      simpa using this

/-- C6 amended: per-file outcomes inside a directory transfer are NOT
collected.  A walk over a directory containing only regular files returns the
outcome of the LAST file processed — each earlier per-file result is
overwritten — and `cp` aggregates only these per-source final outcomes into
the exit status. -/
theorem c6_last_file_outcome (fs : LocalFS) (O : Oracle) (fuel : Nat)
    (src dst : PyStr)
    (hdir : fs.isdir src = true) (hpr : O.rexists dst = false)
    (hmk : ∀ p, O.mkdirOk p = true)
    (hne : fs.listdir src ≠ [])
    (hfiles : ∀ e ∈ fs.listdir src, fs.isdir (osJoin src e) = false
      ∧ fs.isfile (osJoin src e) = true
      ∧ 0 ≤ O.offset (osJoin src e) (osJoin dst e)) :
    (upload fs O (fuel + 1) src dst false true).2
      = .ok (fileOut O (osJoin src ((fs.listdir src).getLastD []))
                       (osJoin dst ((fs.listdir src).getLastD []))) := by
  unfold upload
  rw [hdir]
  unfold walk
  simp only [hpr, Bool.not_false, Bool.false_or, if_true, hmk dst]
  have hpe := processEntries_all_files fs O src dst (fs.listdir src) hne hfiles []
    Option.none
  rcases hp : processEntries fs O false src dst (fs.listdir src) [] Option.none with
    ⟨evs2, r2⟩
  rw [hp] at hpe
  simp only at hpe
  subst hpe
  simp [hp, walk]

/-- C6 amended, witness: on the concrete `D/{f, g}` tree with `f` rejected,
the walk's result is the LAST file `g`'s (successful) outcome. -/
theorem c6_last_file_outcome_witness :
    (upload fsTwoFiles O_rejectF 5 (pys "D") (pys "X") false true).2
      = .ok (fileOut O_rejectF
          (osJoin (pys "D") ((fsTwoFiles.listdir (pys "D")).getLastD []))
          (osJoin (pys "X") ((fsTwoFiles.listdir (pys "D")).getLastD []))) :=
  c6_last_file_outcome fsTwoFiles O_rejectF 4 (pys "D") (pys "X") rfl rfl
    (fun _ => rfl) (by decide) (by decide)

/-! Claim C7: helper lemmas about `firstChars` and `process_names_fscheck`. -/

/-- `firstChars` succeeds on a list of non-empty tokens. -/
theorem firstChars_ok_of_nonempty :
    ∀ (src : List PyStr), (∀ x ∈ src, x ≠ []) → ∃ cs, firstChars src = .ok cs
  | [], _ => ⟨[], rfl⟩
  | y :: rest, h => by
    cases y with
    | nil => exact absurd rfl (h [] (List.mem_cons_self [] rest))
    | cons c ys =>
      obtain ⟨cs, hcs⟩ :=
        firstChars_ok_of_nonempty rest (fun x hx => h x (List.mem_cons_of_mem _ hx))
      exact ⟨c :: cs, by unfold firstChars; rw [hcs]⟩

/-- The head of any member of `src` occurs in a successful `firstChars`
result. -/
theorem firstChars_head_mem :
    ∀ (src : List PyStr) (cs : List Char), firstChars src = .ok cs →
      ∀ (c : Char) (x : PyStr), (c :: x) ∈ src → c ∈ cs
  | [], _, _, _, _, hmem => absurd hmem (List.not_mem_nil _)
  | y :: rest, cs, h, c, x, hmem => by
    cases y with
    | nil => exact absurd h (by unfold firstChars; exact fun hx => by cases hx)
    | cons cy ys =>
      cases hr : firstChars rest with
      | error e =>
        unfold firstChars at h
        rw [hr] at h
        cases h
      | ok cs2 =>
        unfold firstChars at h
        rw [hr] at h
        cases h
        rcases List.mem_cons.mp hmem with heq | hmem2
        · cases heq
          exact List.mem_cons_self _ _
        · exact List.mem_cons_of_mem _ (firstChars_head_mem rest cs2 hr c x hmem2)

/-- Conversely, every character of a successful `firstChars` result is the
head of some member of `src`. -/
theorem firstChars_mem_rev :
    ∀ (src : List PyStr) (cs : List Char), firstChars src = .ok cs →
      ∀ c ∈ cs, ∃ x, (c :: x) ∈ src
  | [], cs, h, c, hc => by
    cases h
    exact absurd hc (List.not_mem_nil _)
  | y :: rest, cs, h, c, hc => by
    cases y with
    | nil => exact absurd h (by unfold firstChars; exact fun hx => by cases hx)
    | cons cy ys =>
      cases hr : firstChars rest with
      | error e =>
        unfold firstChars at h
        rw [hr] at h
        cases h
      | ok cs2 =>
        unfold firstChars at h
        rw [hr] at h
        cases h
        rcases List.mem_cons.mp hc with heq | hc2
        · subst heq
          exact ⟨ys, List.mem_cons_self _ _⟩
        · obtain ⟨x, hx⟩ := firstChars_mem_rev rest cs2 hr c hc2
          exact ⟨x, List.mem_cons_of_mem _ hx⟩

/-- When every source token is local (no leading colon) and non-empty, the
first-character list holds no colon at all. -/
theorem firstChars_count_zero (src : List PyStr)
    (h : ∀ x ∈ src, startswithColon x = false ∧ x ≠ []) :
    ∃ cs, firstChars src = .ok cs ∧ cs.count ':' = 0 := by
  obtain ⟨cs, hcs⟩ := firstChars_ok_of_nonempty src (fun x hx => (h x hx).2)
  refine ⟨cs, hcs, List.count_eq_zero.mpr ?_⟩
  intro hmem
  obtain ⟨x, hx⟩ := firstChars_mem_rev src cs hcs ':' hmem
  have := (h (':' :: x) hx).1
  simp [startswithColon] at this

/-- When every source token is remote (leading colon), the first-character
list is all colons. -/
theorem firstChars_count_length (src : List PyStr)
    (h : ∀ x ∈ src, startswithColon x = true) :
    ∃ cs, firstChars src = .ok cs ∧ cs.count ':' = cs.length := by
  have hne : ∀ x ∈ src, x ≠ [] := by
    intro x hx hnil
    subst hnil
    simpa [startswithColon] using h [] hx
  obtain ⟨cs, hcs⟩ := firstChars_ok_of_nonempty src hne
  refine ⟨cs, hcs, List.count_eq_length.mpr ?_⟩
  intro b hb
  obtain ⟨x, hx⟩ := firstChars_mem_rev src cs hcs b hb
  have := h (b :: x) hx
  simp [startswithColon] at this
  exact this.symm

/-- A remote member forces a colon into the first-character list. -/
theorem firstChars_count_ne_zero (src : List PyStr) (cs : List Char)
    (hcs : firstChars src = .ok cs)
    (x : PyStr) (hx : x ∈ src) (hcol : startswithColon x = true) :
    cs.count ':' ≠ 0 := by
  cases x with
  | nil => simp [startswithColon] at hcol
  | cons c ys =>
    have hc : c = ':' := by simpa [startswithColon] using hcol
    subst hc
    have := firstChars_head_mem src cs hcs ':' ys hx
    exact fun h0 => (List.count_eq_zero.mp h0) this

/-- A local member keeps the first-character list from being all colons. -/
theorem firstChars_count_ne_length (src : List PyStr) (cs : List Char)
    (hcs : firstChars src = .ok cs)
    (x : PyStr) (hx : x ∈ src) (hne : x ≠ []) (hcol : startswithColon x = false) :
    cs.count ':' ≠ cs.length := by
  cases x with
  | nil => exact absurd rfl hne
  | cons c ys =>
    have hc : c ≠ ':' := by simpa [startswithColon] using hcol
    have hmem := firstChars_head_mem src cs hcs c ys hx
    intro hlen
    exact hc ((List.count_eq_length.mp hlen) c hmem).symm

/-- The filesystem checks succeed for an upload whose sources all exist. -/
theorem fscheck_upload_ok (fs : LocalFS) (src : List PyStr) (dst : PyStr)
    (hdst : startswithColon dst = true) (h : ∀ x ∈ src, fs.pexists x = true) :
    process_names_fscheck fs src dst = .ok (src, dst.tail, true) := by
  unfold process_names_fscheck
  have hfind : src.find? (fun n => !fs.pexists n) = Option.none := by
    rw [List.find?_eq_none]
    intro x hx
    simp [h x hx]
  simp [hdst, hfind]

/-- The filesystem checks succeed for a download whose destination satisfies
the directory preconditions. -/
theorem fscheck_download_ok (fs : LocalFS) (src : List PyStr) (dst : PyStr)
    (hdst : startswithColon dst = false) (h : downloadDstOk fs dst = true) :
    process_names_fscheck fs src dst = .ok (src, dst.tail, false) := by
  unfold process_names_fscheck
  unfold downloadDstOk at h
  cases hpe : fs.pexists dst with
  | false =>
    rw [hpe] at h
    simp at h
    simp [hdst, hpe, h]
  | true =>
    rw [hpe] at h
    simp at h
    simp [hdst, hpe, h]

/-- C7 amended: with fewer than two tokens `process_names` fails with the
usage assertion; with at least two non-empty tokens a uniform, unambiguous
marker distribution yields a result whose direction matches the
destination's marker side PROVIDED the local-filesystem preconditions also
hold (upload: every source exists; download: the destination satisfies the
directory checks) — uniform markers alone do not guarantee success — while
any mixed/ambiguous distribution fails with the address assertion. -/
theorem c7_classifier_amended (fs : LocalFS) (names : List PyStr) :
    (names.length < 2 →
      process_names fs names
        = .error (.assertionError "expect at least two file names"))
    ∧ (2 ≤ names.length → (∀ x ∈ names.dropLast, x ≠ []) →
       ((startswithColon (names.getLastD []) = true
           ∧ (∀ x ∈ names.dropLast, startswithColon x = false)) →
         (∀ x ∈ names.dropLast, fs.pexists x = true) →
         process_names fs names
           = .ok (names.dropLast, (names.getLastD []).tail, true))
       ∧ ((startswithColon (names.getLastD []) = false
           ∧ (∀ x ∈ names.dropLast, startswithColon x = true)) →
         downloadDstOk fs (names.getLastD []) = true →
         process_names fs names
           = .ok (names.dropLast, (names.getLastD []).tail, false))
       ∧ (((startswithColon (names.getLastD []) = true
             ∧ ∃ x ∈ names.dropLast, startswithColon x = true)
           ∨ (startswithColon (names.getLastD []) = false
             ∧ ∃ x ∈ names.dropLast, startswithColon x = false)) →
         process_names fs names
           = .error (.assertionError "wrong source or destination address"))) := by
  cases names with
  | nil => exact ⟨fun _ => rfl, fun h => absurd h (by simp)⟩
  | cons a tl =>
    cases tl with
    | nil => exact ⟨fun _ => rfl, fun h => absurd h (by simp)⟩
    | cons b tl2 =>
      cases tl2 with
      | nil =>
        have hdl : (a :: [b] : List PyStr).dropLast = [a] := rfl
        have hgl : (a :: [b] : List PyStr).getLastD [] = b := rfl
        rw [hdl, hgl]
        refine ⟨fun h => absurd h (by simp), fun _ _ => ⟨?_, ?_, ?_⟩⟩
        · rintro ⟨hdst, hsrc⟩ hex
          have hs := hsrc a (List.mem_cons_self a [])
          show (if (startswithColon a && startswithColon b)
                  || (!startswithColon a && !startswithColon b) then
                  Except.error (PyErr.assertionError "wrong source or destination address")
                else process_names_fscheck fs [a] b) = _
          rw [hs, hdst]
          simpa using fscheck_upload_ok fs [a] b hdst hex
        · rintro ⟨hdst, hsrc⟩ hok
          have hs := hsrc a (List.mem_cons_self a [])
          show (if (startswithColon a && startswithColon b)
                  || (!startswithColon a && !startswithColon b) then
                  Except.error (PyErr.assertionError "wrong source or destination address")
                else process_names_fscheck fs [a] b) = _
          rw [hs, hdst]
          simpa using fscheck_download_ok fs [a] b hdst hok
        · rintro (⟨hdst, x, hx, hxcol⟩ | ⟨hdst, x, hx, hxcol⟩) <;>
            rw [List.mem_singleton.mp hx] at hxcol <;>
            show (if (startswithColon a && startswithColon b)
                    || (!startswithColon a && !startswithColon b) then
                    Except.error (PyErr.assertionError "wrong source or destination address")
                  else process_names_fscheck fs [a] b) = _ <;>
            rw [hxcol, hdst] <;> simp
      | cons c tl3 =>
        have hpn : process_names fs (a :: b :: c :: tl3)
            = (match firstChars ((a :: b :: c :: tl3).dropLast) with
               | .error e => .error e
               | .ok chars =>
                 if (startswithColon ((a :: b :: c :: tl3).getLastD [])
                       && decide (chars.count ':' ≠ 0))
                     || (!startswithColon ((a :: b :: c :: tl3).getLastD [])
                       && decide (chars.count ':' ≠ chars.length)) then
                   .error (.assertionError "wrong source or destination address")
                 else
                   process_names_fscheck fs ((a :: b :: c :: tl3).dropLast)
                     ((a :: b :: c :: tl3).getLastD [])) := rfl
        refine ⟨fun h => absurd h (by simp), fun _ hne => ⟨?_, ?_, ?_⟩⟩
        · rintro ⟨hdst, hsrc⟩ hex
          obtain ⟨cs, hcs, hc0⟩ := firstChars_count_zero ((a :: b :: c :: tl3).dropLast)
            (fun x hx => ⟨hsrc x hx, hne x hx⟩)
          rw [hpn, hcs]
          simp only [hdst, hc0]
          simpa using fscheck_upload_ok fs ((a :: b :: c :: tl3).dropLast)
            ((a :: b :: c :: tl3).getLastD []) hdst hex
        · rintro ⟨hdst, hsrc⟩ hok
          obtain ⟨cs, hcs, hcl⟩ :=
            firstChars_count_length ((a :: b :: c :: tl3).dropLast) hsrc
          rw [hpn, hcs]
          simp only [hdst, hcl]
          simpa using fscheck_download_ok fs ((a :: b :: c :: tl3).dropLast)
            ((a :: b :: c :: tl3).getLastD []) hdst hok
        · obtain ⟨cs, hcs⟩ :=
            firstChars_ok_of_nonempty ((a :: b :: c :: tl3).dropLast) hne
          rintro (⟨hdst, x, hx, hxcol⟩ | ⟨hdst, x, hx, hxcol⟩)
          · have h0 := firstChars_count_ne_zero ((a :: b :: c :: tl3).dropLast)
              cs hcs x hx hxcol
            rw [hpn, hcs]
            have hcond : (startswithColon ((a :: b :: c :: tl3).getLastD [])
                  && decide (cs.count ':' ≠ 0)
                || !startswithColon ((a :: b :: c :: tl3).getLastD [])
                  && decide (cs.count ':' ≠ cs.length)) = true := by
              rw [hdst]
              simp [h0]
            simp only [hcond]
            rfl
          · have hl := firstChars_count_ne_length ((a :: b :: c :: tl3).dropLast)
              cs hcs x hx (hne x hx) hxcol
            rw [hpn, hcs]
            have hcond : (startswithColon ((a :: b :: c :: tl3).getLastD [])
                  && decide (cs.count ':' ≠ 0)
                || !startswithColon ((a :: b :: c :: tl3).getLastD [])
                  && decide (cs.count ':' ≠ cs.length)) = true := by
              rw [hdst]
              simp [hl]
            simp only [hcond]
            rfl

/-- C7 counterexample: a two-token list with uniform, unambiguous markers
(local source, remote destination) on which `process_names` nevertheless does
NOT succeed: the local source is missing, so the filesystem-precondition
assertion fires. -/
theorem c7_uniform_markers_can_fail :
    (startswithColon (pys ":b") = true ∧ startswithColon (pys "a") = false
      ∧ ([pys "a", pys ":b"] : List PyStr).length = 2)
    ∧ process_names fsNothing [pys "a", pys ":b"]
        = .error (.assertionError "file not exists: a") :=
  ⟨⟨rfl, rfl, rfl⟩, rfl⟩

/-- C7 amended, witness: the classifier evaluated on `cp . :x` with `.`
existing locally — success with the upload direction. -/
theorem c7_classifier_amended_witness :
    process_names fsDot [pys ".", pys ":x"]
      = .ok ([pys "."], (pys ":x").tail, true) :=
  ((c7_classifier_amended fsDot [pys ".", pys ":x"]).2 (by decide) (by decide)).1
    (by decide) (by decide)

/-! Claim C8. -/

/-- Every success of the filesystem-check tail of `process_names` returns the
tail of the destination token it was given. -/
theorem fscheck_dst_tail (fs : LocalFS) (src0 : List PyStr) (d : PyStr)
    (r : List PyStr × PyStr × Bool)
    (h : process_names_fscheck fs src0 d = .ok r) : r.2.1 = d.tail := by
  unfold process_names_fscheck at h
  repeat' split at h
  all_goals first
    | (cases h; rfl)
    | cases h

/-- C8: `process_names` strips the first character of the destination token
unconditionally (`dst = dst[1:]`).  Every successful classification returns
the tail of the last token as the destination — also in the download
direction, where the token has no leading colon to strip (for instance a
destination `.` becomes the empty path). -/
theorem c8_strip_first_char (fs : LocalFS) (names : List PyStr)
    (src : List PyStr) (dst : PyStr) (b : Bool)
    (h : process_names fs names = .ok (src, dst, b)) :
    dst = (names.getLastD []).tail := by
  cases names with
  | nil => simp [process_names] at h
  | cons a tl =>
    cases tl with
    | nil => simp [process_names] at h
    | cons d tl2 =>
      cases tl2 with
      | nil =>
        simp only [process_names] at h
        split at h
        · cases h
        · exact fscheck_dst_tail fs [a] d (src, dst, b) h
      | cons c tl3 =>
        simp only [process_names] at h
        split at h
        · cases h
        · split at h
          · cases h
          · exact fscheck_dst_tail fs _ _ (src, dst, b) h

/-- C8 witness: `cp :a .` — the local destination `.` comes back as the empty
path. -/
theorem c8_strip_first_char_witness :
    ([] : PyStr) = (([pys ":a", pys "."] : List PyStr).getLastD []).tail :=
  c8_strip_first_char fsDot [pys ":a", pys "."] [pys ":a"] [] false rfl

/-! Claim C9. -/

/-- Every source processed by `cp`'s loop that is an existing regular file
(with an accepting mkdir and a non-negative offset) gives rise to an
upload-direction offset query and an upload-endpoint call carrying its
bytes, whatever the classified direction was. -/
theorem cpLoop_uploads (fs : LocalFS) (O : Oracle) (fuel : Nat)
    (recursive : Bool) (dst : PyStr) :
    ∀ (srcs : List PyStr) (res : Bool),
      (∀ s ∈ srcs, fs.isdir s = false ∧ fs.isfile s = true ∧ 0 ≤ O.offset s dst) →
      O.mkdirOk (pyDirname dst) = true →
      ∀ s ∈ srcs,
        Event.offsetQuery s dst ∈ (cpLoop fs O fuel false recursive dst srcs res).1
        ∧ Event.uploadBytes s dst (O.offset s dst)
          ∈ (cpLoop fs O fuel false recursive dst srcs res).1
  | [], _, _, _, s, hs => absurd hs (List.not_mem_nil _)
  | x :: srest, res, hall, hmk, s, hs => by
    obtain ⟨hnd, hf, hoff⟩ := hall x (List.mem_cons_self x srest)
    unfold cpLoop
    rw [upload_file_plain fs O fuel x dst recursive hnd hf hmk hoff]
    rcases List.mem_cons.mp hs with heq | hmem
    · subst heq
      constructor <;> simp
    · have := cpLoop_uploads fs O fuel recursive dst srest
        (res && (fileOut O x dst).1)
        (fun y hy => hall y (List.mem_cons_of_mem x hy)) hmk s hmem
      rcases hcl : cpLoop fs O fuel false recursive dst srest
          (res && (fileOut O x dst).1) with ⟨evs2, r2⟩
      rw [hcl] at this
      simp only [hcl]
      simp only at this
      exact ⟨by simp [this.1], by simp [this.2]⟩

/-- C9: `cp` ignores the classified direction.  For every validated
invocation whose markers indicate a DOWNLOAD (remote sources, local
destination), every source that is an existing regular file locally is
nevertheless pushed through the upload path: the trace of `cp` contains the
upload-direction offset query for that source and an upload-endpoint call
carrying its bytes; no download request exists anywhere in the model of
`cp`. -/
theorem c9_cp_always_uploads (fs : LocalFS) (O : Oracle) (fuel : Nat)
    (recursive : Bool) (names : List PyStr) (src : List PyStr) (dst : PyStr)
    (hpn : process_names fs names = .ok (src, dst, false))
    (hall : ∀ s ∈ src, fs.isdir s = false ∧ fs.isfile s = true ∧ 0 ≤ O.offset s dst)
    (hmk : O.mkdirOk (pyDirname dst) = true) :
    ∀ s ∈ src,
      Event.offsetQuery s dst ∈ (cp fs O fuel false recursive names).1
      ∧ Event.uploadBytes s dst (O.offset s dst)
        ∈ (cp fs O fuel false recursive names).1 := by
  intro s hs
  unfold cp
  rw [hpn]
  exact cpLoop_uploads fs O fuel recursive dst src true hall hmk s hs

/-- C9 witness: `cp :a .` on a filesystem where a regular file literally
named `:a` exists — markers say download, yet the client queries the upload
offset for it and sends its bytes to the server via the upload endpoint. -/
theorem c9_cp_always_uploads_witness :
    Event.offsetQuery (pys ":a") []
      ∈ (cp fsColonFile O_base 3 false false [pys ":a", pys "."]).1
    ∧ Event.uploadBytes (pys ":a") [] (O_base.offset (pys ":a") [])
      ∈ (cp fsColonFile O_base 3 false false [pys ":a", pys "."]).1 :=
  c9_cp_always_uploads fsColonFile O_base 3 false [pys ":a", pys "."] [pys ":a"] []
    rfl (by decide) rfl (pys ":a") (by decide)

/-! Claim C10. -/

/-- On a filesystem with no regular files, the entry loop never assigns the
`status, errmsg` locals: the state passes through unchanged (only directory
tasks are enqueued). -/
theorem processEntries_no_files (fs : LocalFS) (O : Oracle) (one : Bool)
    (dir dst_dir : PyStr) (hnf : ∀ p, fs.isfile p = false) :
    ∀ (entries : List PyStr) (q : List (PyStr × PyStr)) (st : Option Outcome),
      ∃ q2, (processEntries fs O one dir dst_dir entries q st).2 = .ok (q2, st)
  | [], q, st => ⟨q, rfl⟩
  | sub :: rest, q, st => by
    unfold processEntries
    cases hd : fs.isdir (osJoin dir sub) with
    | true =>
      simp only [hd, if_true]
      exact processEntries_no_files fs O one dir dst_dir hnf rest _ st
    | false =>
      simp only [hd, hnf (osJoin dir sub), Bool.false_eq_true, if_false]
      exact processEntries_no_files fs O one dir dst_dir hnf rest q st

/-- On a filesystem with no regular files and a server that accepts every
mkdir, the walk either finishes with the `status, errmsg` locals still
unassigned or (model only) runs out of fuel. -/
theorem walk_no_files (fs : LocalFS) (O : Oracle) (one : Bool)
    (hnf : ∀ p, fs.isfile p = false) (hmk : ∀ p, O.mkdirOk p = true) :
    ∀ (fuel : Nat) (q : List (PyStr × PyStr)) (anE : Bool),
      (walk fs O one fuel q anE Option.none).2 = .ok Option.none
        ∨ (walk fs O one fuel q anE Option.none).2 = .error .outOfFuel
  | 0, [], _ => Or.inl rfl
  | 0, _ :: _, _ => Or.inr rfl
  | fuel + 1, [], _ => Or.inl rfl
  | fuel + 1, (dir, dst_dir) :: rest, anE => by
    unfold walk
    obtain ⟨q2, hq2⟩ := processEntries_no_files fs O one dir dst_dir hnf
      (fs.listdir dir) rest Option.none
    rcases hpe : processEntries fs O one dir dst_dir (fs.listdir dir) rest
        Option.none with ⟨evs2, r2⟩
    rw [hpe] at hq2
    simp only at hq2
    subst hq2
    cases hc : (anE || !(O.rexists dst_dir)) with
    | true =>
      simp only [hc, if_true, hmk dst_dir, hpe]
      rcases hw : walk fs O one fuel q2 true Option.none with ⟨evs3, r3⟩
      rcases walk_no_files fs O one hnf hmk fuel q2 true with h | h <;>
        rw [hw] at h <;> simp only at h <;> subst h
      · exact Or.inl rfl
      · exact Or.inr rfl
    | false =>
      simp only [hc, Bool.false_eq_true, if_false, hmk (osJoin dst_dir dir), hpe]
      rcases hw : walk fs O one fuel q2 anE Option.none with ⟨evs3, r3⟩
      rcases walk_no_files fs O one hnf hmk fuel q2 anE with h | h <;>
        rw [hw] at h <;> simp only at h <;> subst h
      · exact Or.inl rfl
      · exact Or.inr rfl

/-- C10: a recursive upload of a directory tree with no regular files
anywhere reaches `return status, errmsg` with both locals never assigned:
provided the walk terminates (does not exhaust the model's fuel), the
operation fails with `UnboundLocalError` instead of returning an outcome. -/
theorem c10_no_files_unbound (fs : LocalFS) (O : Oracle) (fuel : Nat)
    (src dst : PyStr) (one : Bool)
    (hdir : fs.isdir src = true)
    (hnf : ∀ p, fs.isfile p = false)
    (hmk : ∀ p, O.mkdirOk p = true)
    (hterm : (walk fs O one fuel [(src, dst)] false Option.none).2
      ≠ .error .outOfFuel) :
    (upload fs O fuel src dst one true).2 = .error .unboundLocal := by
  unfold upload
  rw [hdir]
  rcases hw : walk fs O one fuel [(src, dst)] false Option.none with ⟨evs, r⟩
  rcases walk_no_files fs O one hnf hmk fuel [(src, dst)] false with h | h <;>
    rw [hw] at h <;> simp only at h <;> subst h
  · simp [hw]
  · rw [hw] at hterm
    simp only at hterm
    exact absurd rfl hterm

/-- C10 witness: the walk over `D/` (one empty subdirectory `S`, no regular
file) terminates and the upload dies with `UnboundLocalError`. -/
theorem c10_no_files_unbound_witness :
    (upload fsOnlyDirs O_base 3 (pys "D") (pys "X") false true).2
      = .error .unboundLocal :=
  c10_no_files_unbound fsOnlyDirs O_base 3 (pys "D") (pys "X") false rfl
    (fun _ => rfl) (fun _ => rfl) (fun h => Except.noConfusion h)

end Webdrive
